import Mathlib

/-!
Shallow embedding of the sorted-stream record filter of `bio-jtools-rs`.

The embedded code:
* `src/align/filter.rs` — `filter`, the merge-join filter engine over a
  name-sorted record stream and a sorted identifier file (`loopGo`/`catchUp`
  below model its single `loop`; `filter` models priming plus the tail flush).
* `src/fastq/filter/iter.rs` — `assert_ids_are_sorted` and
  `assert_records_are_sorted` (the fastq sortedness helpers).
* `src/fastq/filter/error.rs` — `FastqFilterError`.
* `src/record/filter.rs` / `src/fastq/filter/mod.rs` — `writer_output`.
* `src/fastq/filter/opts.rs` — `CliOpt::exec` for `FastqFilterOpts`.

Records are modelled as a pair of their name (the comparison key, a text
string standing for the byte string the source uses) and a numeric payload
standing for the rest of the record; the engine only ever inspects the name
and writes records through verbatim. Rust `str::to_lowercase` is modelled by
per-character `String.toLower`; both sides of every comparison go through the
same fold, which is all the development relies on.
-/

namespace BioJtools

/-- A record of the record stream: its name (comparison key) and an opaque
payload standing for the record body that is written through verbatim. -/
abbrev Rec := String × Nat

/-- Models `str::to_lowercase`: the case fold applied to every identifier and
every record name as it is read (`id.to_lowercase()`,
`from_utf8(..).unwrap().to_lowercase()` in `src/align/filter.rs`), as the
per-character fold over the string's characters. -/
def to_lowercase (s : String) : String := ⟨s.data.map Char.toLower⟩

/-- Lexicographic comparison of character lists; with `strLt` below it models
Rust's `<` on `String`/`str` (byte-lexicographic, which agrees with
code-point-lexicographic order on UTF-8 data). -/
def charsLt (a b : List Char) : Bool :=
  match a, b with
  | [], [] => false
  | [], _ :: _ => true
  | _ :: _, [] => false
  | c :: cs, d :: ds => if c < d then true else if d < c then false else charsLt cs ds

/-- Rust's `<` on strings, used for every identifier/record-name comparison. -/
def strLt (a b : String) : Bool := charsLt a.data b.data

/-- The fatal conditions of `src/align/filter.rs`'s `filter` (each a `panic!`
in the source): empty ID file, empty record file, and the two sort-order
violations. -/
inductive AlignFilterErr where
  | EmptyIdSource
  | EmptyRecordSource
  | IdentifiersNotSorted
  | RecordsNotSorted
deriving DecidableEq

/-- Which of the two sortedness checks inside the merge loop fired. -/
inductive SortViolation where
  | idsNotSorted
  | recordsNotSorted
deriving DecidableEq

/-- Outcome of the merge loop of `src/align/filter.rs` (`loop { .. }`,
lines 52–118): the record stream was exhausted inside the loop (and
`writer.finish()` ran), or the identifier stream was exhausted with records
still pending (`deal_with_remaining_reads = true`, carrying the records not
yet read), or one of the two sortedness panics fired. `out` is everything
written so far. -/
inductive LoopResult where
  | finished (out : List Rec)
  | idsExhausted (out : List Rec) (remaining : List Rec)
  | sortError (v : SortViolation) (out : List Rec)
deriving DecidableEq

/-- Outcome of the consecutive `cur_record_name > cur_id` iterations for one
fixed current record: the identifier cursor caught up (new `prev_id`,
`cur_id`, rest of the ID file), or the ID file was exhausted, or a newly read
identifier violated the sort order. -/
inductive CatchUp where
  | caughtUp (prev_id cur_id : String) (idsRem : List String)
  | exhausted
  | unsorted
deriving DecidableEq

/-- The `cur_record_name > cur_id` branch of the loop in
`src/align/filter.rs` (lines 82–97), iterated for one fixed current record:
while the record name is ahead of `cur_id`, read the next identifier,
case-fold it, and re-check the identifier sortedness that the top of the next
loop iteration performs (`&cur_id < &prev_id`, line 54); the checks whose
operands are unchanged from the previous iteration are elided, as they
re-yield the same result. Recursion is on the ID file remainder. -/
def catchUp (cur_record_name prev_id cur_id : String) (idsRem : List String) :
    CatchUp :=
  if strLt cur_id cur_record_name then
    match idsRem with
    | [] => .exhausted
    | i :: rest =>
      let newId := to_lowercase i
      if strLt newId cur_id then .unsorted
      else catchUp cur_record_name cur_id newId rest
  else .caughtUp prev_id cur_id idsRem

/-- The merge loop of `src/align/filter.rs` (lines 52–118).  The head of
`recs` is `cur_record`; when `recs` is empty the reader reported no further
record and the loop closed the writer and broke (lines 74–77 / 111–114).
Per iteration: the record sortedness check (line 58, identifier check is
inside `catchUp`), then the three-way comparison of the case-folded record
name against `cur_id`:
* `cur_record_name < cur_id` (lines 64–80): write the record iff `!keep`,
  advance only the record cursor;
* `cur_record_name > cur_id` (lines 82–97, via `catchUp`): advance only the
  identifier cursor; on ID exhaustion write `cur_record` unconditionally
  (line 93) and break with the remaining records;
* equality (lines 98–117): write the record iff `keep`, advance only the
  record cursor. -/
def loopGo (prev_id cur_id : String) (idsRem : List String)
    (prev_record_name : String) (recs : List Rec) (keep : Bool)
    (out : List Rec) : LoopResult :=
  match recs with
  | [] => .finished out
  | r :: rest =>
    let cur_record_name := to_lowercase r.1
    if strLt cur_record_name prev_record_name then .sortError .recordsNotSorted out
    else if strLt cur_record_name cur_id then
      loopGo prev_id cur_id idsRem cur_record_name rest keep
        (if keep then out else out ++ [r])
    else
      match catchUp cur_record_name prev_id cur_id idsRem with
      | .unsorted => .sortError .idsNotSorted out
      | .exhausted => .idsExhausted (out ++ [r]) rest
      | .caughtUp p c rem =>
        if strLt cur_record_name c then
          loopGo p c rem cur_record_name rest keep
            (if keep then out else out ++ [r])
        else
          loopGo p c rem cur_record_name rest keep
            (if keep then out ++ [r] else out)

/-- Result of one whole pass of `src/align/filter.rs`'s `filter`: everything
written through the writer in order, how many times `writer.finish()` was
called, and the fatal condition (`panic!`) if one fired. -/
structure RunResult where
  out : List Rec
  finishes : Nat
  err : Option AlignFilterErr
deriving DecidableEq

/-- `filter` of `src/align/filter.rs` (lines 17–129) over a list of ID-file
lines and a list of records.  Priming: the first identifier is read and
case-folded (`prev_id = cur_id`, lines 30–35; an empty ID file panics), then
the first record (lines 38–47; an empty record file panics).  Then the merge
loop runs; if it ends with the identifier stream exhausted, the tail flush
(lines 120–128) writes every remaining record and calls `finish()` — but
only when `deal_with_remaining_reads && !keep`. -/
def filter (ids : List String) (records : List Rec) (keep : Bool) : RunResult :=
  match ids with
  | [] => ⟨[], 0, some .EmptyIdSource⟩
  | i :: idsRest =>
    match records with
    | [] => ⟨[], 0, some .EmptyRecordSource⟩
    | r :: _ =>
      match loopGo (to_lowercase i) (to_lowercase i) idsRest
          (to_lowercase r.1) records keep [] with
      | .finished out => ⟨out, 1, none⟩
      | .idsExhausted out rem =>
        if keep then ⟨out, 0, none⟩ else ⟨out ++ rem, 1, none⟩
      | .sortError v out =>
        ⟨out, 0,
          some (match v with
            | .idsNotSorted => .IdentifiersNotSorted
            | .recordsNotSorted => .RecordsNotSorted)⟩

/-! ### The fastq filter module (`src/fastq/filter/`) -/

/-- `FastqFilterError` of `src/fastq/filter/error.rs` (payloads of the two
parse-error variants are dropped; they carry only the underlying cause). -/
inductive FastqFilterError where
  | CannotSpecifyRegexAndIdFile
  | FilterCannotBeEmpty
  | IdFileNotProvidedWhenRequired
  | IdFileCannotBeOpened
  | CannotParseIdFileLine
  | EmptyIdFile
  | CannotParseFastqRecord
  | CannotParseFastqRecordId
  | EmptyFastqFile
  | IdFileNotSorted
  | FastqNotSorted
  | NoRecordIdFromNone
deriving DecidableEq

/-- `FastqFilterIter::assert_ids_are_sorted` of `src/fastq/filter/iter.rs`
(lines 124–135): given the current and previous filter IDs (as
`curr_filter_id()` / `prev_filter_id()` return them), `Ok` when
`curr < prev`, otherwise `Err(IdFileNotSorted)`; `Ok` when either side is
absent. -/
def assert_ids_are_sorted (curr_filter_id prev_filter_id : Option String) :
    Except FastqFilterError Unit :=
  match curr_filter_id, prev_filter_id with
  | some curr, some prev =>
    if strLt curr prev then .ok () else .error .IdFileNotSorted
  | _, _ => .ok ()

/-- The free function `assert_records_are_sorted` of
`src/fastq/filter/opts.rs` (lines 188–203): the current record is the
`Option<Result<SequenceRecord, ParseError>>` the reader returned (modelled by
its ID), the previous record is its ID; `Ok` when `curr.id() < prev`,
otherwise `Err(FastqNotSorted)`; a parse error is surfaced as
`CannotParseFastqRecord`; `Ok` when either side is absent. -/
def assert_records_are_sorted (curr_record : Option (Except Unit String))
    (prev_record_id : Option String) : Except FastqFilterError Unit :=
  match curr_record, prev_record_id with
  | some (.ok curr), some prev =>
    if strLt curr prev then .ok () else .error .FastqNotSorted
  | some (.error _), _ => .error .CannotParseFastqRecord
  | _, _ => .ok ()

/-- A filesystem model for the `std::fs::File` calls the filter code makes:
the existing files with their contents. -/
abbrev Fs := List (String × List String)

/-- The writer `writer_output` hands back: an opened file or standard
output (`Box<dyn Write>` over `File` or `io::stdout()`). -/
inductive OutWriter where
  | file (path : String)
  | standardOut
deriving DecidableEq

inductive IoError where
  | notFound
deriving DecidableEq

/-- `File::open`: read-only open of an existing file; errors when the path
does not exist; the filesystem is returned unchanged (an open never creates
nor truncates). -/
def file_open (fs : Fs) (path : String) : Except IoError OutWriter × Fs :=
  (if path ∈ fs.map Prod.fst then .ok (.file path) else .error .notFound, fs)

/-- `File::create`: creates the file, or truncates it when it exists, and
returns a writable handle.  (Used by the abandoned fastq `filter` in
`src/fastq/filter.rs` line 133; listed here as the contrasting primitive
that `writer_output` does *not* call.) -/
def file_create (fs : Fs) (path : String) : OutWriter × Fs :=
  (.file path, (path, []) :: fs.filter (fun e => e.1 != path))

/-- `writer_output` — identically `RecordFilter::writer_output` of
`src/record/filter.rs` (lines 14–19) and `FastqFilterOpts::writer_output` of
`src/fastq/filter/mod.rs` (lines 64–69): `Some(path)` is opened with
`File::open`, `None` yields a standard-output writer. -/
def writer_output (output : Option String) (fs : Fs) :
    Except IoError OutWriter × Fs :=
  match output with
  | some path => file_open fs path
  | none => (.ok .standardOut, fs)

/-- `FastqFilterOpts` of `src/fastq/filter/opts.rs` (lines 22–47); the regex
is modelled by its pattern text. -/
structure FastqFilterOpts where
  hts_path : String
  regex : Option String
  id_list_path : Option String
  output : Option String
  keep : Bool

/-- A file the fastq filter opens while executing. -/
inductive FileOp where
  | openRead (path : String)
deriving DecidableEq

/-- Which filtering routine `exec` dispatches to. -/
inductive ExecRoute where
  | regexRoute
  | idFileRoute
deriving DecidableEq

/-- The files `FastqFilterOpts::filter_with_id_file`
(`src/fastq/filter/opts.rs`, lines 71–149) opens, in order:
`get_id_file_lines` opens the ID file (after failing with
`IdFileNotProvidedWhenRequired` before any open when no ID path is set),
`get_hts_reader` opens the HTS file, and `writer_output` opens the output
file when one is named (with `File::open`, see `writer_output`). -/
def filter_with_id_file_ops (opts : FastqFilterOpts) : List FileOp :=
  match opts.id_list_path with
  | none => []
  | some p =>
    .openRead p :: .openRead opts.hts_path ::
      (match opts.output with
        | some o => [.openRead o]
        | none => [])

/-- `CliOpt::exec` for `FastqFilterOpts` (`src/fastq/filter/opts.rs`,
lines 50–60): dispatch on whether a regex and/or an ID file were given.
Both given bails with `CannotSpecifyRegexAndIdFile`, neither bails with
`FilterCannotBeEmpty`; both bails happen before either filtering routine
runs, so no file is touched (second component: the files opened).
`filter_with_id_regex` (lines 172–174) is `Ok(())` and touches nothing. -/
def exec (opts : FastqFilterOpts) :
    Except FastqFilterError ExecRoute × List FileOp :=
  match opts.regex, opts.id_list_path with
  | some _, some _ => (.error .CannotSpecifyRegexAndIdFile, [])
  | some _, none => (.ok .regexRoute, [])
  | none, some _ => (.ok .idFileRoute, filter_with_id_file_ops opts)
  | none, none => (.error .FilterCannotBeEmpty, [])

/-! ### Case-fold equivalence

Two inputs are equivalent when they agree after the case fold that the engine
applies on every read; the engine's observable behaviour (errors, finish
calls, and which records it emits) may depend on its inputs only through
these images. -/

/-- A record up to the case fold of its name (the payload untouched). -/
abbrev foldRec (r : Rec) : Rec := (to_lowercase r.1, r.2)

/-- Two record lists agreeing after case-folding every name. -/
abbrev recsEquiv (xs ys : List Rec) : Prop := xs.map foldRec = ys.map foldRec

/-- Two identifier lists agreeing after case-folding every line. -/
abbrev idsEquiv (xs ys : List String) : Prop :=
  xs.map to_lowercase = ys.map to_lowercase

/-- `catchUp` results matching up to case-fold of the not-yet-read IDs. -/
def catchUpEquiv : CatchUp → CatchUp → Prop
  | .caughtUp p1 c1 r1, .caughtUp p2 c2 r2 => p1 = p2 ∧ c1 = c2 ∧ idsEquiv r1 r2
  | .exhausted, .exhausted => True
  | .unsorted, .unsorted => True
  | _, _ => False

/-- Merge-loop results matching up to case-fold of the records carried. -/
def loopEquiv : LoopResult → LoopResult → Prop
  | .finished o1, .finished o2 => recsEquiv o1 o2
  | .idsExhausted o1 r1, .idsExhausted o2 r2 => recsEquiv o1 o2 ∧ recsEquiv r1 r2
  | .sortError v1 o1, .sortError v2 o2 => v1 = v2 ∧ recsEquiv o1 o2
  | _, _ => False

/-! ## Theorems -/

lemma charsLt_irrefl (l : List Char) : charsLt l l = false := by
  induction l with
  | nil => rfl
  | cons c cs ih => simp [charsLt, ih]

lemma strLt_irrefl (s : String) : strLt s s = false := charsLt_irrefl s.data

/-- When the current record's name is not ahead of `cur_id`, the identifier
cursor does not move at all. -/
lemma catchUp_not_lt (cur_record_name prev_id cur_id : String)
    (idsRem : List String) (h : strLt cur_id cur_record_name = false) :
    catchUp cur_record_name prev_id cur_id idsRem
      = .caughtUp prev_id cur_id idsRem := by
  cases idsRem <;> simp [catchUp, h]

lemma recsEquiv_append {a b c d : List Rec} (h1 : recsEquiv a b)
    (h2 : recsEquiv c d) : recsEquiv (a ++ c) (b ++ d) := by
  simp only [recsEquiv, List.map_append, h1, h2]

/-- Identifier catch-up behaves identically on identifier streams that agree
after case-folding. -/
lemma catchUp_congr (cur_record_name prev_id cur_id : String)
    (ids1 ids2 : List String) :
    idsEquiv ids1 ids2 →
    catchUpEquiv (catchUp cur_record_name prev_id cur_id ids1)
      (catchUp cur_record_name prev_id cur_id ids2) := by
  induction ids1 generalizing ids2 prev_id cur_id with
  | nil =>
    intro h
    cases ids2 with
    | nil =>
      cases hc : strLt cur_id cur_record_name <;>
        simp [catchUp, hc, catchUpEquiv, idsEquiv]
    | cons j jt => simp [idsEquiv] at h
  | cons i it ih =>
    intro h
    cases ids2 with
    | nil => simp [idsEquiv] at h
    | cons j jt =>
      simp only [idsEquiv, List.map_cons, List.cons.injEq] at h
      obtain ⟨h1, h2⟩ := h
      cases hc : strLt cur_id cur_record_name with
      | false => simp [catchUp, hc, catchUpEquiv, idsEquiv, h1, h2]
      | true =>
        simp only [catchUp, hc, if_true]
        rw [h1]
        cases hlt : strLt (to_lowercase j) cur_id with
        | true => simp [hlt, catchUpEquiv]
        | false => simpa [hlt] using ih _ _ _ h2

/-- The merge loop behaves identically (same branch decisions, same errors,
corresponding emissions) on inputs that agree after case-folding. -/
lemma loopGo_congr (recs1 : List Rec) : ∀ (recs2 : List Rec)
    (ids1 ids2 : List String) (prev_id cur_id prev_record_name : String)
    (keep : Bool) (out1 out2 : List Rec),
    recsEquiv recs1 recs2 → idsEquiv ids1 ids2 → recsEquiv out1 out2 →
    loopEquiv (loopGo prev_id cur_id ids1 prev_record_name recs1 keep out1)
      (loopGo prev_id cur_id ids2 prev_record_name recs2 keep out2) := by
  induction recs1 with
  | nil =>
    intro recs2 ids1 ids2 prev_id cur_id prev_record_name keep out1 out2
      hrecs _ hout
    cases recs2 with
    | nil => simpa [loopGo, loopEquiv] using hout
    | cons r2 t2 => simp [recsEquiv] at hrecs
  | cons r1 t1 ih =>
    intro recs2 ids1 ids2 prev_id cur_id prev_record_name keep out1 out2
      hrecs hids hout
    cases recs2 with
    | nil => simp [recsEquiv] at hrecs
    | cons r2 t2 =>
      simp only [recsEquiv, List.map_cons, List.cons.injEq] at hrecs
      obtain ⟨hr, ht⟩ := hrecs
      have hname : to_lowercase r1.1 = to_lowercase r2.1 :=
        congrArg Prod.fst hr
      have hsing : recsEquiv (out1 ++ [r1]) (out2 ++ [r2]) :=
        recsEquiv_append hout (by simp [recsEquiv, List.map_cons, hr])
      have hlt_out : recsEquiv (if keep then out1 else out1 ++ [r1])
          (if keep then out2 else out2 ++ [r2]) := by
        cases keep with
        | false => exact hsing
        | true => exact hout
      have heq_out : recsEquiv (if keep then out1 ++ [r1] else out1)
          (if keep then out2 ++ [r2] else out2) := by
        cases keep with
        | false => exact hout
        | true => exact hsing
      simp only [loopGo]
      rw [← hname]
      cases hb : strLt (to_lowercase r1.1) prev_record_name with
      | true => exact ⟨rfl, hout⟩
      | false =>
        simp only [hb, Bool.false_eq_true, if_false]
        cases hb2 : strLt (to_lowercase r1.1) cur_id with
        | true =>
          simp only [hb2, if_true]
          exact ih _ _ _ _ _ _ _ _ _ ht hids hlt_out
        | false =>
          simp only [hb2, Bool.false_eq_true, if_false]
          have hcu := catchUp_congr (to_lowercase r1.1) prev_id cur_id
            ids1 ids2 hids
          cases hc1 : catchUp (to_lowercase r1.1) prev_id cur_id ids1 with
          | caughtUp p1 c1 rem1 =>
            cases hc2 : catchUp (to_lowercase r1.1) prev_id cur_id ids2 with
            | caughtUp p2 c2 rem2 =>
              rw [hc1, hc2] at hcu
              simp only [catchUpEquiv] at hcu
              obtain ⟨hp, hcc, hrem⟩ := hcu
              subst hp; subst hcc
              cases hb3 : strLt (to_lowercase r1.1) c1 with
              | true =>
                simp only [hb3, if_true]
                exact ih _ _ _ _ _ _ _ _ _ ht hrem hlt_out
              | false =>
                simp only [hb3, Bool.false_eq_true, if_false]
                exact ih _ _ _ _ _ _ _ _ _ ht hrem heq_out
            | exhausted => rw [hc1, hc2] at hcu; simp [catchUpEquiv] at hcu
            | unsorted => rw [hc1, hc2] at hcu; simp [catchUpEquiv] at hcu
          | exhausted =>
            cases hc2 : catchUp (to_lowercase r1.1) prev_id cur_id ids2 with
            | caughtUp p2 c2 rem2 =>
              rw [hc1, hc2] at hcu; simp [catchUpEquiv] at hcu
            | exhausted => exact ⟨hsing, ht⟩
            | unsorted => rw [hc1, hc2] at hcu; simp [catchUpEquiv] at hcu
          | unsorted =>
            cases hc2 : catchUp (to_lowercase r1.1) prev_id cur_id ids2 with
            | caughtUp p2 c2 rem2 =>
              rw [hc1, hc2] at hcu; simp [catchUpEquiv] at hcu
            | exhausted => rw [hc1, hc2] at hcu; simp [catchUpEquiv] at hcu
            | unsorted => exact ⟨rfl, hout⟩

/-- Spec §8 scenario 1: records `a,a,b,c`, identifiers `[a]`, `keep=false`
emits `b,c` (and one `finish`). -/
theorem spec_scenario_one :
    filter ["a"] [("a", 0), ("a", 1), ("b", 2), ("c", 3)] false
      = ⟨[("b", 2), ("c", 3)], 1, none⟩ := by decide

/-- Spec §8 scenario 3: records `a,b,c`, identifiers `[b]`, `keep=false`
emits `a,c`: the identifier stream is exhausted at `c` and the tail flush
emits it under discard semantics. -/
theorem spec_scenario_three :
    filter ["b"] [("a", 0), ("b", 1), ("c", 2)] false
      = ⟨[("a", 0), ("c", 2)], 1, none⟩ := by decide

/-- C1: the spec says the record pending when the identifier stream is
exhausted is emitted iff `!keep`; the code (`src/align/filter.rs` line 93)
writes it unconditionally.  On records `a,a,b,c`, identifiers `[a]`,
`keep=true` (spec §8 scenario 2, whose stated output is `a,a`) the engine
also emits the pending record `b`. -/
theorem pending_record_emitted_despite_keep :
    (filter ["a"] [("a", 0), ("a", 1), ("b", 2), ("c", 3)] true).out
        = [("a", 0), ("a", 1), ("b", 2)]
      ∧ (filter ["a"] [("a", 0), ("a", 1), ("b", 2), ("c", 3)] true).err
        = none := by decide

/-- C2: the `keep=true` / `keep=false` outputs do not partition the input:
because the record pending at identifier exhaustion is written
unconditionally (`src/align/filter.rs` line 93), record `c` appears in both
outputs for records `a,c`, identifiers `[b]`. -/
theorem complementarity_violated :
    ("c", 1) ∈ (filter ["b"] [("a", 0), ("c", 1)] true).out
      ∧ ("c", 1) ∈ (filter ["b"] [("a", 0), ("c", 1)] false).out := by decide

/-- C4: the fastq sortedness helpers are inverted.
`FastqFilterIter::assert_ids_are_sorted` (`src/fastq/filter/iter.rs`
lines 124–135) and `assert_records_are_sorted`
(`src/fastq/filter/opts.rs` lines 188–203) return `Ok` exactly when
`curr < prev` — i.e. they report equal consecutive keys (and correctly
sorted ones) as sort violations and accept genuine descents — while the
align engine (`src/align/filter.rs` lines 52–60) accepts equal consecutive
identifiers and record keys as the claim states. -/
theorem fastq_sortedness_checks_inverted :
    assert_ids_are_sorted (some "a") (some "a") = .error .IdFileNotSorted
      ∧ assert_records_are_sorted (some (.ok "a")) (some "a")
        = .error .FastqNotSorted
      ∧ assert_ids_are_sorted (some "a") (some "b") = .ok ()
      ∧ assert_records_are_sorted (some (.ok "a")) (some "b") = .ok ()
      ∧ (filter ["a", "a"] [("a", 0), ("b", 1)] false).err = none
      ∧ (filter ["c"] [("a", 0), ("a", 1)] false).err = none :=
  ⟨rfl, rfl, rfl, rfl, by decide, by decide⟩

/-- C5: when the identifier stream is exhausted first and `keep=true`, the
pass terminates cleanly with every record consumed but `finish()` is never
called — the tail-flush block holding the final `writer.finish()`
(`src/align/filter.rs` lines 122–128) is guarded by `!keep`.  Under
`keep=false` the same input finishes exactly once. -/
theorem finish_skipped_when_ids_exhausted_under_keep :
    (filter ["a"] [("b", 0)] true).finishes = 0
      ∧ (filter ["a"] [("b", 0)] true).err = none
      ∧ (filter ["a"] [("b", 0)] false).finishes = 1 := by decide

/-- C6: when the merge loop ends because the identifier stream was exhausted
with records remaining, the pass emits, after everything the loop wrote,
exactly the remaining records verbatim and in order when `keep=false`, and
nothing at all when `keep=true`, and the pass terminates without error. -/
theorem tail_flush_writes_iff_discard (ids : List String) (records : List Rec)
    (keep : Bool) (i : String) (idsRest : List String) (r : Rec)
    (recsRest : List Rec) (out rem : List Rec)
    (hids : ids = i :: idsRest) (hrecs : records = r :: recsRest)
    (hloop : loopGo (to_lowercase i) (to_lowercase i) idsRest
        (to_lowercase r.1) records keep [] = .idsExhausted out rem) :
    (filter ids records keep).out = out ++ (if keep then [] else rem)
      ∧ (filter ids records keep).err = none := by
  subst hids; subst hrecs
  simp only [filter, hloop]
  cases keep <;> simp

theorem tail_flush_writes_iff_discard_witness :
    (loopGo (to_lowercase "a") (to_lowercase "a") []
        (to_lowercase (("b", 0) : Rec).1) [("b", 0), ("c", 1)] false []
      = .idsExhausted [("b", 0)] [("c", 1)])
    ∧ ((filter ["a"] [("b", 0), ("c", 1)] false).out
          = [("b", 0)] ++ (if false then [] else [("c", 1)])
        ∧ (filter ["a"] [("b", 0), ("c", 1)] false).err = none) :=
  ⟨by decide,
   tail_flush_writes_iff_discard ["a"] [("b", 0), ("c", 1)] false "a" []
     ("b", 0) [("c", 1)] [("b", 0)] [("c", 1)] rfl rfl (by decide)⟩

/-- C7: both sides of every comparison are case-folded as they are read, so
the whole pass — the three-way classification, both sortedness checks, which
records are emitted, and the finalization count — is insensitive to letter
case in either input: on inputs agreeing after the case fold it produces the
same error, the same number of `finish()` calls, and emissions agreeing
after the case fold (records are written verbatim, so only their names'
case may differ). -/
theorem filter_comparisons_case_insensitive (ids1 ids2 : List String)
    (recs1 recs2 : List Rec) (keep : Bool) :
    idsEquiv ids1 ids2 → recsEquiv recs1 recs2 →
    (filter ids1 recs1 keep).err = (filter ids2 recs2 keep).err
      ∧ (filter ids1 recs1 keep).finishes = (filter ids2 recs2 keep).finishes
      ∧ recsEquiv (filter ids1 recs1 keep).out (filter ids2 recs2 keep).out := by
  intro hids hrecs
  cases ids1 with
  | nil =>
    cases ids2 with
    | nil => exact ⟨rfl, rfl, rfl⟩
    | cons j jt => simp [idsEquiv] at hids
  | cons i it =>
    cases ids2 with
    | nil => simp [idsEquiv] at hids
    | cons j jt =>
      simp only [idsEquiv, List.map_cons, List.cons.injEq] at hids
      obtain ⟨hij, hit⟩ := hids
      cases recs1 with
      | nil =>
        cases recs2 with
        | nil => exact ⟨rfl, rfl, rfl⟩
        | cons r2 t2 => simp [recsEquiv] at hrecs
      | cons r1 t1 =>
        cases recs2 with
        | nil => simp [recsEquiv] at hrecs
        | cons r2 t2 =>
          have hname : to_lowercase r1.1 = to_lowercase r2.1 := by
            have h := hrecs
            simp only [recsEquiv, List.map_cons, List.cons.injEq] at h
            exact congrArg Prod.fst h.1
          have hl := loopGo_congr (r1 :: t1) (r2 :: t2) it jt
            (to_lowercase i) (to_lowercase i) (to_lowercase r1.1) keep [] []
            hrecs hit rfl
          simp only [filter]
          rw [← hij, ← hname]
          cases hl1 : loopGo (to_lowercase i) (to_lowercase i) it
              (to_lowercase r1.1) (r1 :: t1) keep [] with
          | finished o1 =>
            cases hl2 : loopGo (to_lowercase i) (to_lowercase i) jt
                (to_lowercase r1.1) (r2 :: t2) keep [] with
            | finished o2 =>
              rw [hl1, hl2] at hl
              exact ⟨rfl, rfl, hl⟩
            | idsExhausted o2 m2 => rw [hl1, hl2] at hl; exact hl.elim
            | sortError v2 o2 => rw [hl1, hl2] at hl; exact hl.elim
          | idsExhausted o1 m1 =>
            cases hl2 : loopGo (to_lowercase i) (to_lowercase i) jt
                (to_lowercase r1.1) (r2 :: t2) keep [] with
            | finished o2 => rw [hl1, hl2] at hl; exact hl.elim
            | idsExhausted o2 m2 =>
              rw [hl1, hl2] at hl
              obtain ⟨ho, hm⟩ := hl
              cases keep with
              | true => exact ⟨rfl, rfl, ho⟩
              | false => exact ⟨rfl, rfl, recsEquiv_append ho hm⟩
            | sortError v2 o2 => rw [hl1, hl2] at hl; exact hl.elim
          | sortError v1 o1 =>
            cases hl2 : loopGo (to_lowercase i) (to_lowercase i) jt
                (to_lowercase r1.1) (r2 :: t2) keep [] with
            | finished o2 => rw [hl1, hl2] at hl; exact hl.elim
            | idsExhausted o2 m2 => rw [hl1, hl2] at hl; exact hl.elim
            | sortError v2 o2 =>
              rw [hl1, hl2] at hl
              obtain ⟨hv, ho⟩ := hl
              subst hv
              exact ⟨rfl, rfl, ho⟩

theorem filter_comparisons_case_insensitive_witness :
    (idsEquiv ["A"] ["a"] ∧ recsEquiv [("B", 0)] [("b", 0)])
      ∧ ((filter ["A"] [("B", 0)] false).err
            = (filter ["a"] [("b", 0)] false).err
        ∧ (filter ["A"] [("B", 0)] false).finishes
            = (filter ["a"] [("b", 0)] false).finishes
        ∧ recsEquiv (filter ["A"] [("B", 0)] false).out
            (filter ["a"] [("b", 0)] false).out) :=
  ⟨⟨by decide, by decide⟩,
   filter_comparisons_case_insensitive ["A"] ["a"] [("B", 0)] [("b", 0)]
     false (by decide) (by decide)⟩

/-- C8: an empty identifier source and an empty record source are distinct
fatal configuration errors reported with nothing emitted and the sink never
finalized, and the empty-source errors are raised only for genuinely empty
sources (never after one or more records were merged). -/
theorem empty_sources_are_fatal_config_errors (ids : List String)
    (records : List Rec) (keep : Bool) :
    (ids = [] → filter ids records keep = ⟨[], 0, some .EmptyIdSource⟩)
      ∧ (ids ≠ [] → records = [] →
          filter ids records keep = ⟨[], 0, some .EmptyRecordSource⟩)
      ∧ ((filter ids records keep).err = some .EmptyRecordSource →
          records = [])
      ∧ ((filter ids records keep).err = some .EmptyIdSource → ids = []) := by
  refine ⟨?_, ?_, ?_, ?_⟩
  · rintro rfl; rfl
  · rintro h rfl
    cases ids with
    | nil => exact absurd rfl h
    | cons i idsRest => rfl
  · intro h
    cases ids with
    | nil => simp [filter] at h
    | cons i idsRest =>
      cases records with
      | nil => rfl
      | cons r recsRest =>
        exfalso
        simp only [filter] at h
        cases hl : loopGo (to_lowercase i) (to_lowercase i) idsRest
            (to_lowercase r.1) (r :: recsRest) keep [] with
        | finished o => rw [hl] at h; simp at h
        | idsExhausted o rem => rw [hl] at h; cases keep <;> simp at h
        | sortError v o => rw [hl] at h; cases v <;> simp at h
  · intro h
    cases ids with
    | nil => rfl
    | cons i idsRest =>
      exfalso
      cases records with
      | nil => simp [filter] at h
      | cons r recsRest =>
        simp only [filter] at h
        cases hl : loopGo (to_lowercase i) (to_lowercase i) idsRest
            (to_lowercase r.1) (r :: recsRest) keep [] with
        | finished o => rw [hl] at h; simp at h
        | idsExhausted o rem => rw [hl] at h; cases keep <;> simp at h
        | sortError v o => rw [hl] at h; cases v <;> simp at h

theorem empty_sources_are_fatal_config_errors_witness :
    (filter [] [("a", 0)] true = ⟨[], 0, some .EmptyIdSource⟩)
      ∧ (["a"] ≠ ([] : List String)
          ∧ filter ["a"] [] true = ⟨[], 0, some .EmptyRecordSource⟩) :=
  ⟨(empty_sources_are_fatal_config_errors [] [("a", 0)] true).1 rfl,
   by decide,
   (empty_sources_are_fatal_config_errors ["a"] [] true).2.1 (by decide) rfl⟩

/-- C9: `writer_output` opens a named output path read-only via `File::open`:
the filesystem is left exactly as it was (nothing created, nothing
truncated), the open errs precisely when the path does not already exist,
and with no output path it yields a standard-output writer. -/
theorem writer_output_opens_read_only (output : Option String) (fs : Fs) :
    ((writer_output output fs).2 = fs)
      ∧ (∀ path, output = some path →
          ((writer_output output fs).1 = .error .notFound
            ↔ path ∉ fs.map Prod.fst))
      ∧ (output = none → (writer_output output fs).1 = .ok .standardOut) := by
  refine ⟨?_, ?_, ?_⟩
  · cases output <;> simp [writer_output, file_open]
  · rintro path rfl
    simp only [writer_output, file_open]
    by_cases h : path ∈ fs.map Prod.fst <;> simp [h]
  · rintro rfl; rfl

theorem writer_output_opens_read_only_witness :
    ((writer_output (some "out.bam") [("in.bam", [])]).1 = .error .notFound
        ↔ "out.bam" ∉ ([("in.bam", [])] : Fs).map Prod.fst)
      ∧ ((writer_output (some "in.bam") [("in.bam", [])]).2
          = [("in.bam", [])])
      ∧ ((writer_output none ([] : Fs)).1 = .ok .standardOut) :=
  ⟨(writer_output_opens_read_only (some "out.bam") [("in.bam", [])]).2.1
      "out.bam" rfl,
   (writer_output_opens_read_only (some "in.bam") [("in.bam", [])]).1,
   (writer_output_opens_read_only none []).2.2 rfl⟩

/-- C10: `exec` bails with `CannotSpecifyRegexAndIdFile` when both a regex
and an ID file are given, and with `FilterCannotBeEmpty` when neither is,
in both cases before any filtering routine runs — no file is opened or
read. -/
theorem exec_rejects_invalid_filter_config (opts : FastqFilterOpts) :
    (∀ r p, opts.regex = some r → opts.id_list_path = some p →
        exec opts = (.error .CannotSpecifyRegexAndIdFile, []))
      ∧ (opts.regex = none → opts.id_list_path = none →
          exec opts = (.error .FilterCannotBeEmpty, [])) := by
  constructor
  · intro r p hr hp
    simp [exec, hr, hp]
  · intro hr hp
    simp [exec, hr, hp]

/-- C3: a maximal run of consecutive records whose case-folded keys all equal
the current identifier is processed entirely in the equality branch: every
record of the run is emitted when `keep=true` and none when `keep=false`,
and the identifier cursor (`prev_id`, `cur_id` and the unread identifiers)
is left untouched across the whole run, so each record of the run is
compared against the same identifier. -/
theorem duplicate_key_run_emitted_iff_keep (run rest : List Rec)
    (prev_id cur_id prev_record_name : String) (idsRem : List String)
    (keep : Bool) (out : List Rec) :
    run ≠ [] →
    (∀ r ∈ run, to_lowercase r.1 = cur_id) →
    strLt cur_id prev_record_name = false →
    loopGo prev_id cur_id idsRem prev_record_name (run ++ rest) keep out
      = loopGo prev_id cur_id idsRem cur_id rest keep
          (out ++ if keep then run else []) := by
  induction run generalizing prev_record_name out with
  | nil => intro hne _ _; exact absurd rfl hne
  | cons r rs ih =>
    intro _ hall hprev
    have hr : to_lowercase r.1 = cur_id := hall r (List.mem_cons_self r rs)
    have hall' : ∀ x ∈ rs, to_lowercase x.1 = cur_id := fun x hx =>
      hall x (List.mem_cons_of_mem r hx)
    rw [List.cons_append]
    simp only [loopGo, hr, hprev, strLt_irrefl, Bool.false_eq_true, if_false,
      catchUp_not_lt _ _ _ _ (strLt_irrefl cur_id)]
    cases rs with
    | nil => cases keep <;> simp
    | cons r2 rs2 =>
      rw [ih cur_id (if keep then out ++ [r] else out)
        (List.cons_ne_nil r2 rs2) hall' (strLt_irrefl cur_id)]
      cases keep <;> simp

theorem duplicate_key_run_emitted_iff_keep_witness :
    ((∀ r ∈ [(("A" : String), (0 : Nat)), ("a", 1)], to_lowercase r.1 = "a")
        ∧ strLt "a" "a" = false)
      ∧ loopGo "a" "a" [] "a" ([("A", 0), ("a", 1)] ++ [("b", 2)]) true []
          = loopGo "a" "a" [] "a" [("b", 2)] true
              ([] ++ if true then [("A", 0), ("a", 1)] else []) :=
  ⟨⟨by decide, by decide⟩,
   duplicate_key_run_emitted_iff_keep [("A", 0), ("a", 1)] [("b", 2)]
     "a" "a" "a" [] true [] (by decide) (by decide) (by decide)⟩

theorem exec_rejects_invalid_filter_config_witness :
    (exec ⟨"reads.fq", some "^x", some "ids.txt", none, false⟩
        = (.error .CannotSpecifyRegexAndIdFile, []))
      ∧ (exec ⟨"reads.fq", none, none, none, false⟩
          = (.error .FilterCannotBeEmpty, [])) :=
  ⟨(exec_rejects_invalid_filter_config _).1 "^x" "ids.txt" rfl rfl,
   (exec_rejects_invalid_filter_config _).2 rfl rfl⟩

end BioJtools
